import Mathlib

/-!
Shallow embedding of `pwledger::Secret` (src/include/Secret.h): a RAII
container for sensitive byte buffers backed by libsodium's hardened
allocator, together with its scoped access guards
`details::Secret_readaccess` / `details::Secret_writeaccess`.

Modelling conventions:
* A live `sodium_malloc` allocation is a `Buffer`: its byte contents plus
  its current mprotect level. `sodium_mprotect_*` calls succeed on a valid
  region (their failure path in the code is `std::abort`, which never
  returns, so it contributes no reachable state).
* `Secret.data_` is `Option Buffer` (`none` models the null pointer),
  `size_` is the stored byte count, and `access_count_` models the
  debug-only `std::atomic<int>` guard counter.
* Every operation takes a `debug : Bool` selecting the instrumented build
  (`NDEBUG` not defined). Release builds skip all `access_count_` reads,
  writes and asserts, exactly as `#ifndef NDEBUG` blocks do.
* An operation returns `none` when the process does not continue normally:
  a failed `assert` (which aborts) or an `mprotect` on a null pointer
  (undefined behavior, documented as a segfault in the header).
* Bytes are `Nat` (each byte a value below 256 in practice; no claim
  depends on the bound).
-/

namespace pwledger

/-- The three protection levels offered by `sodium_mprotect_noaccess`,
`sodium_mprotect_readonly` and `sodium_mprotect_readwrite`. -/
inductive Prot where
  | NoAccess
  | ReadOnly
  | ReadWrite
deriving DecidableEq, Repr

/-- A live hardened allocation: its byte contents and current protection
state. -/
structure Buffer where
  bytes : List Nat
  prot  : Prot
deriving DecidableEq, Repr

/-- `sodium_mprotect_readwrite` on a live allocation. -/
def sodium_mprotect_readwrite (b : Buffer) : Buffer :=
  { b with prot := Prot.ReadWrite }

/-- `sodium_mprotect_readonly` on a live allocation. -/
def sodium_mprotect_readonly (b : Buffer) : Buffer :=
  { b with prot := Prot.ReadOnly }

/-- `sodium_mprotect_noaccess` on a live allocation. -/
def sodium_mprotect_noaccess (b : Buffer) : Buffer :=
  { b with prot := Prot.NoAccess }

/-- `sodium_memzero(p, n)`: the first `n` bytes of the region become zero. -/
def sodium_memzero (b : Buffer) (n : Nat) : Buffer :=
  { b with bytes := List.replicate (min n b.bytes.length) 0 ++ b.bytes.drop n }

/-- libsodium fills a fresh `sodium_malloc` region with the garbage byte
`0xDB` (`GARBAGE_VALUE` in libsodium's allocator). -/
def GARBAGE : Nat := 0xDB

/-- `sodium_malloc size`: a fresh allocation, initially writable and filled
with the allocator's garbage byte. -/
def sodium_malloc (size : Nat) : Buffer :=
  { bytes := List.replicate size GARBAGE, prot := Prot.ReadWrite }

/-- The state of a `pwledger::Secret` object: the (possibly null) owned
allocation `data_`, the stored `size_`, and the debug-only guard counter
`access_count_`. In release builds the counter field does not exist in the
C++ object; here it is carried but never consulted or updated by a
release-mode operation. -/
structure Secret where
  data_ : Option Buffer
  size_ : Nat
  access_count_ : Int
deriving DecidableEq, Repr

/-- `Secret::size()`. -/
def Secret.size (s : Secret) : Nat := s.size_

/-- `Secret::allocate(size)` as called by `Secret::Secret(size)`.
Returns the constructed state (`none` means the process aborted) paired
with whether `sodium_malloc` was actually reached. The debug
`assert(size > 0 && ...)` aborts before the allocator call; in release
builds the assert is compiled out and the allocator is called whatever the
size. `sodium_malloc` failure and `sodium_mprotect_noaccess` failure both
abort and are not reachable states of the model. -/
def allocate (debug : Bool) (size : Nat) : Option Secret × Bool :=
  if debug ∧ ¬ 0 < size then (none, false)
  else
    (some { data_ := some (sodium_mprotect_noaccess (sodium_malloc size)),
            size_ := size,
            access_count_ := 0 }, true)

/-- `Secret::zeroize()`: if `data_` is non-null, open the region for
writing, `sodium_memzero(data_, size_)`, and re-lock it. -/
def zeroize (s : Secret) : Secret :=
  match s.data_ with
  | none => s
  | some b =>
      let b1 := sodium_mprotect_readwrite b
      let b2 := sodium_memzero b1 s.size_
      let b3 := sodium_mprotect_noaccess b2
      { s with data_ := some b3 }

/-- `Secret::wipe_and_free()` (the destructor body): if `data_` is
non-null, `sodium_free` it (which zeroes internally) and null out the
fields. The returned flag records whether `sodium_free` was called. -/
def wipe_and_free (s : Secret) : Secret × Bool :=
  match s.data_ with
  | none => (s, false)
  | some _ => ({ s with data_ := none, size_ := 0 }, true)

/-- `Secret::Secret(Secret&&)`: the destination steals `data_` and `size_`,
the source is nulled, and in debug builds the source's guard counter is
asserted to be zero (abort otherwise) and the destination's counter starts
at zero. Returns `(destination, source after the move)`. -/
def moveConstruct (debug : Bool) (other : Secret) : Option (Secret × Secret) :=
  if debug ∧ other.access_count_ ≠ 0 then none
  else
    some ({ data_ := other.data_, size_ := other.size_, access_count_ := 0 },
          { other with data_ := none, size_ := 0 })

/-- `Secret::operator=(Secret&&)`. `isSelf` is the result of the
`this != &other` pointer-identity test being false; in that case the body
is skipped entirely. Otherwise, after the debug asserts on both guard
counters, the destination's previous allocation (if any) is released via
`sodium_free` (which zeroes first), then ownership transfers and the
source is nulled. Returns `(destination, source, freedOld)` where
`freedOld` records whether `sodium_free` ran on the destination's previous
allocation. -/
def moveAssign (debug : Bool) (isSelf : Bool) (dest src : Secret) :
    Option (Secret × Secret × Bool) :=
  if isSelf then some (dest, src, false)
  else if debug ∧ (dest.access_count_ ≠ 0 ∨ src.access_count_ ≠ 0) then none
  else
    some ({ data_ := src.data_, size_ := src.size_, access_count_ := 0 },
          { src with data_ := none, size_ := 0 },
          dest.data_.isSome)

/-- `details::Secret_readaccess::Secret_readaccess(s)`: in debug builds the
guard counter is incremented and the previous value asserted zero (abort
otherwise); then `sodium_mprotect_readonly(s.data_)` runs — undefined on a
null pointer, hence `none` for an empty Secret. -/
def readaccess_open (debug : Bool) (s : Secret) : Option Secret :=
  if debug ∧ s.access_count_ ≠ 0 then none
  else
    match s.data_ with
    | none => none
    | some b =>
        let c := if debug then s.access_count_ + 1 else s.access_count_
        some { s with data_ := some (sodium_mprotect_readonly b), access_count_ := c }

/-- `details::Secret_readaccess::~Secret_readaccess()`:
`sodium_mprotect_noaccess(s.data_)` (undefined on null), then in debug
builds the guard counter is decremented. -/
def readaccess_close (debug : Bool) (s : Secret) : Option Secret :=
  match s.data_ with
  | none => none
  | some b =>
      let c := if debug then s.access_count_ - 1 else s.access_count_
      some { s with data_ := some (sodium_mprotect_noaccess b), access_count_ := c }

/-- `details::Secret_readaccess::get()`: the span `{data_, size_}`, i.e.
the first `size_` bytes of the allocation (empty for a null pointer). -/
def readaccess_get (s : Secret) : List Nat :=
  match s.data_ with
  | none => []
  | some b => b.bytes.take s.size_

/-- `details::Secret_writeaccess::Secret_writeaccess(s)`: same shape as the
read guard, with `sodium_mprotect_readwrite`. -/
def writeaccess_open (debug : Bool) (s : Secret) : Option Secret :=
  if debug ∧ s.access_count_ ≠ 0 then none
  else
    match s.data_ with
    | none => none
    | some b =>
        let c := if debug then s.access_count_ + 1 else s.access_count_
        some { s with data_ := some (sodium_mprotect_readwrite b), access_count_ := c }

/-- `details::Secret_writeaccess::~Secret_writeaccess()`. -/
def writeaccess_close (debug : Bool) (s : Secret) : Option Secret :=
  match s.data_ with
  | none => none
  | some b =>
      let c := if debug then s.access_count_ - 1 else s.access_count_
      some { s with data_ := some (sodium_mprotect_noaccess b), access_count_ := c }

/-- Writing `src` at the start of a region `dest` (a `memcpy` of `src` to
the span's base pointer): positions `0 ≤ i < |src|` receive `src`, the
remaining bytes are untouched. -/
def list_write (dest src : List Nat) : List Nat :=
  src.take dest.length ++ dest.drop src.length

/-- `Secret::with_write_access` applied to a callback that copies the byte
sequence `S` to the start of the write span: open a write guard, perform
the copy on the allocation, close the guard. -/
def with_write_bytes (debug : Bool) (s : Secret) (S : List Nat) : Option Secret :=
  (writeaccess_open debug s).bind fun s1 =>
    match s1.data_ with
    | none => none
    | some b =>
        writeaccess_close debug
          { s1 with data_ := some { b with bytes := list_write b.bytes S } }

/-- `Secret::with_read_access` applied to a callback that returns the view:
open a read guard, take the span's bytes, close the guard. Returns the
observed bytes and the Secret's state after the guard closed. -/
def with_read_bytes (debug : Bool) (s : Secret) : Option (List Nat × Secret) :=
  (readaccess_open debug s).bind fun s1 =>
    (readaccess_close debug s1).map fun s2 => (readaccess_get s1, s2)

/-- The write-close-read round trip of spec property P3: write `S` through
a write guard, close it, read through a read guard; the observed view. -/
def write_then_read (debug : Bool) (s : Secret) (S : List Nat) :
    Option (List Nat) :=
  (with_write_bytes debug s S).bind fun s2 =>
    (with_read_bytes debug s2).map Prod.fst

/-- The protection state of a Secret's allocation, if it has one. -/
def protOf (s : Secret) : Option Prot := s.data_.map Buffer.prot

/-- The spec's invariant: whenever the live-guard counter is zero, the
allocation (if any) is in NoAccess state. -/
def inv (s : Secret) : Bool :=
  if s.access_count_ = 0 then
    match s.data_ with
    | none => true
    | some b => b.prot = Prot.NoAccess
  else true

/-! Helper lemmas shared by several claims. -/

theorem list_write_length (dest src : List Nat) :
    (list_write dest src).length = dest.length := by
  simp [list_write]
  omega

theorem list_write_eq_of_le (dest src : List Nat)
    (h : src.length ≤ dest.length) :
    list_write dest src = src ++ dest.drop src.length := by
  simp [list_write, List.take_of_length_le h]

theorem with_write_bytes_eq (debug : Bool) (s : Secret) (b : Buffer)
    (S : List Nat) (hdata : s.data_ = some b) (hcount : s.access_count_ = 0) :
    with_write_bytes debug s S
      = some ⟨some ⟨list_write b.bytes S, Prot.NoAccess⟩, s.size_, 0⟩ := by
  cases s with
  | mk d sz c =>
    subst hdata
    simp only at hcount
    subst hcount
    cases debug <;>
      simp [with_write_bytes, writeaccess_open, writeaccess_close,
            sodium_mprotect_readwrite, sodium_mprotect_noaccess]

theorem with_read_bytes_eq (debug : Bool) (s : Secret) (b : Buffer)
    (hdata : s.data_ = some b) (hcount : s.access_count_ = 0)
    (hlen : b.bytes.length = s.size_) :
    with_read_bytes debug s
      = some (b.bytes, ⟨some ⟨b.bytes, Prot.NoAccess⟩, s.size_, 0⟩) := by
  cases s with
  | mk d sz c =>
    subst hdata
    simp only at hcount hlen
    subst hcount
    cases debug <;>
      simp [with_read_bytes, readaccess_open, readaccess_close, readaccess_get,
            sodium_mprotect_readonly, sodium_mprotect_noaccess,
            List.take_of_length_le (Nat.le_of_eq hlen)]

/-! Claim theorems. -/

/-- C4: for every positive size `n` and in every build, `Secret(n)` reaches
`sodium_malloc` (second component `true`), and the constructed state has a
live allocation in NoAccess protection state, `size_ = n` (so `size()`
returns `n`), and a zero guard counter. -/
theorem construct_noaccess_and_size (debug : Bool) (n : Nat) (hpos : 0 < n) :
    allocate debug n
      = (some ⟨some ⟨List.replicate n GARBAGE, Prot.NoAccess⟩, n, 0⟩, true)
    ∧ ((allocate debug n).1.map Secret.size) = some n
    ∧ ((allocate debug n).1.map protOf) = some (some Prot.NoAccess) := by
  have hne : n ≠ 0 := Nat.pos_iff_ne_zero.mp hpos
  have h1 : allocate debug n
      = (some ⟨some ⟨List.replicate n GARBAGE, Prot.NoAccess⟩, n, 0⟩, true) := by
    simp [allocate, sodium_malloc, sodium_mprotect_noaccess, hne]
  refine ⟨h1, ?_, ?_⟩ <;> rw [h1] <;> simp [Secret.size, protOf]

/-- Witness for C4 at `n = 4` in a debug build. -/
theorem construct_noaccess_and_size_witness :
    allocate true 4
      = (some ⟨some ⟨List.replicate 4 GARBAGE, Prot.NoAccess⟩, 4, 0⟩, true)
    ∧ ((allocate true 4).1.map Secret.size) = some 4
    ∧ ((allocate true 4).1.map protOf) = some (some Prot.NoAccess) :=
  construct_noaccess_and_size true 4 (by decide)

/-- C7: in the instrumented (debug) build, opening a read or write guard on
a Secret whose live-guard counter is nonzero (a guard is already live)
aborts via the `assert(prev == 0)` on the atomic counter: the constructor
never completes. -/
theorem debug_second_guard_aborts (s : Secret) (h : s.access_count_ ≠ 0) :
    readaccess_open true s = none ∧ writeaccess_open true s = none := by
  constructor <;> simp [readaccess_open, writeaccess_open, h]

/-- Witness for C7: a Secret with one live guard (counter 1, region
ReadOnly); both guard constructors abort in the debug build. -/
theorem debug_second_guard_aborts_witness :
    readaccess_open true ⟨some ⟨[7], Prot.ReadOnly⟩, 1, 1⟩ = none
    ∧ writeaccess_open true ⟨some ⟨[7], Prot.ReadOnly⟩, 1, 1⟩ = none :=
  debug_second_guard_aborts ⟨some ⟨[7], Prot.ReadOnly⟩, 1, 1⟩ (by decide)

/-- C6 counterexample: in a release build (`NDEBUG` defined), opening a
read guard on a Secret that is ReadWrite with a write guard live (counter
1) is neither rejected nor fatal: the constructor silently succeeds,
re-protecting the region ReadOnly. So "in every build, Open from a state
other than NoAccess is rejected or fatal" is false. -/
theorem release_open_overlap_succeeds :
    readaccess_open false ⟨some ⟨[7], Prot.ReadWrite⟩, 1, 1⟩
      = some ⟨some ⟨[7], Prot.ReadOnly⟩, 1, 1⟩ := by
  simp [readaccess_open, sodium_mprotect_readonly]

/-- C6 amended: only the debug build rejects an overlapping Open (fatal,
via the guard-counter assert), for both guard variants; in a release build
the check is compiled out and an Open of either variant succeeds from any
protection state, silently overriding it with the new guard's level (the
header documents this as undefined behavior). -/
theorem open_overlap_debug_fatal_release_silent :
    (∀ s : Secret, s.access_count_ ≠ 0 →
        readaccess_open true s = none ∧ writeaccess_open true s = none)
    ∧ (∀ (s : Secret) (b : Buffer), s.data_ = some b →
        readaccess_open false s
          = some { s with data_ := some (sodium_mprotect_readonly b) }
        ∧ writeaccess_open false s
          = some { s with data_ := some (sodium_mprotect_readwrite b) }) := by
  constructor
  · intro s h
    constructor <;> simp [readaccess_open, writeaccess_open, h]
  · intro s b hdata
    constructor <;> simp [readaccess_open, writeaccess_open, hdata]

/-- Witness for the amended C6: debug-build aborts with a live guard; in a
release build a read guard silently opens over a live write guard
(ReadWrite buffer) and a write guard silently opens over a live read guard
(ReadOnly buffer), each overriding the protection state. -/
theorem open_overlap_debug_fatal_release_silent_witness :
    (readaccess_open true ⟨some ⟨[9], Prot.ReadWrite⟩, 1, 1⟩ = none
      ∧ writeaccess_open true ⟨some ⟨[9], Prot.ReadWrite⟩, 1, 1⟩ = none)
    ∧ readaccess_open false ⟨some ⟨[9], Prot.ReadWrite⟩, 1, 1⟩
        = some ⟨some ⟨[9], Prot.ReadOnly⟩, 1, 1⟩
    ∧ writeaccess_open false ⟨some ⟨[9], Prot.ReadOnly⟩, 1, 1⟩
        = some ⟨some ⟨[9], Prot.ReadWrite⟩, 1, 1⟩ :=
  ⟨open_overlap_debug_fatal_release_silent.1
      ⟨some ⟨[9], Prot.ReadWrite⟩, 1, 1⟩ (by decide),
   (open_overlap_debug_fatal_release_silent.2
      ⟨some ⟨[9], Prot.ReadWrite⟩, 1, 1⟩ ⟨[9], Prot.ReadWrite⟩ rfl).1,
   (open_overlap_debug_fatal_release_silent.2
      ⟨some ⟨[9], Prot.ReadOnly⟩, 1, 1⟩ ⟨[9], Prot.ReadOnly⟩ rfl).2⟩

/-- C8 counterexample: in a release build the `assert(size > 0)` is
compiled out, and `Secret(0)` does reach `sodium_malloc` (the flag is
`true`): "Construct(0) never reaches the hardened allocator in any build"
is false. -/
theorem release_construct_zero_reaches_malloc :
    (allocate false 0).2 = true := by
  simp [allocate]

/-- C8 amended: only the debug build rejects size 0, aborting at the
`assert(size > 0)` before `sodium_malloc` is called; in a release build
the check is compiled out and the allocator is reached with size 0. -/
theorem construct_zero_debug_aborts_release_allocates :
    allocate true 0 = (none, false) ∧ (allocate false 0).2 = true := by
  constructor <;> simp [allocate]

/-- C10: move-assigning a Secret to itself (the `this != &other` test
fails) leaves the object bit-for-bit unchanged — same data pointer, size,
contents, protection state and guard counter — and `sodium_free` is never
called (flag `false`), in every build. -/
theorem moveAssign_self_unchanged (debug : Bool) (s : Secret) :
    moveAssign debug true s s = some (s, s, false) := by
  simp [moveAssign]

/-- C1: for every Secret holding an allocation of `size_` bytes with no
live guard, and every byte sequence `S` with `0 < |S| ≤ size_`, writing `S`
through a write guard, closing it, and reading through a read guard yields
a view whose first `|S|` bytes are exactly `S` (and whose length is the
buffer size): the bytes written survive the close/reopen cycle unchanged,
in every build. -/
theorem write_read_roundtrip (debug : Bool) (s : Secret) (b : Buffer)
    (S : List Nat) (hdata : s.data_ = some b) (hlen : b.bytes.length = s.size_)
    (hcount : s.access_count_ = 0) (hpos : 0 < S.length)
    (hle : S.length ≤ s.size_) :
    write_then_read debug s S = some (S ++ b.bytes.drop S.length)
    ∧ (S ++ b.bytes.drop S.length).take S.length = S
    ∧ (S ++ b.bytes.drop S.length).length = s.size_ := by
  have hle2 : S.length ≤ b.bytes.length := by rw [hlen]; exact hle
  have hw := with_write_bytes_eq debug s b S hdata hcount
  have hlw : (list_write b.bytes S).length = s.size_ := by
    rw [list_write_length]; exact hlen
  have hr := with_read_bytes_eq debug
      ⟨some ⟨list_write b.bytes S, Prot.NoAccess⟩, s.size_, 0⟩
      ⟨list_write b.bytes S, Prot.NoAccess⟩ rfl rfl hlw
  have heq : list_write b.bytes S = S ++ b.bytes.drop S.length :=
    list_write_eq_of_le _ _ hle2
  rw [heq] at hw hr
  refine ⟨?_, ?_, ?_⟩
  · simp [write_then_read, hw, hr]
  · exact List.take_left S _
  · simp only [List.length_append, List.length_drop]
    omega

/-- Witness for C1: a 3-byte buffer, writing the 2-byte sequence `[1, 2]`
and reading it back in a debug build. -/
theorem write_read_roundtrip_witness :
    write_then_read true ⟨some ⟨[219, 219, 219], Prot.NoAccess⟩, 3, 0⟩ [1, 2]
        = some ([1, 2] ++ ([219, 219, 219] : List Nat).drop 2)
    ∧ ([1, 2] ++ ([219, 219, 219] : List Nat).drop 2).take 2 = [1, 2]
    ∧ ([1, 2] ++ ([219, 219, 219] : List Nat).drop 2).length = 3 :=
  write_read_roundtrip true ⟨some ⟨[219, 219, 219], Prot.NoAccess⟩, 3, 0⟩
    ⟨[219, 219, 219], Prot.NoAccess⟩ [1, 2] rfl rfl rfl (by decide) (by decide)

/-- C2: for every Secret holding an allocation of its full `size_` bytes,
`zeroize` opens the region ReadWrite (the intermediate state of the
`sodium_mprotect_readwrite` call is ReadWrite), overwrites all `size_`
bytes with zero, and leaves the region allocated, NoAccess, with the size
and guard counter unchanged. -/
theorem zeroize_spec (s : Secret) (b : Buffer)
    (hdata : s.data_ = some b) (hlen : b.bytes.length = s.size_) :
    zeroize s = ⟨some ⟨List.replicate s.size_ 0, Prot.NoAccess⟩, s.size_, s.access_count_⟩
    ∧ (zeroize s).size_ = s.size_
    ∧ (zeroize s).data_.isSome = true
    ∧ (sodium_mprotect_readwrite b).prot = Prot.ReadWrite := by
  have hd : b.bytes.drop s.size_ = [] := by
    rw [← hlen]; exact List.drop_length _
  have h1 : zeroize s
      = ⟨some ⟨List.replicate s.size_ 0, Prot.NoAccess⟩, s.size_, s.access_count_⟩ := by
    cases s with
    | mk d sz c =>
      subst hdata
      simp only at hlen hd
      simp [zeroize, sodium_mprotect_readwrite, sodium_memzero,
            sodium_mprotect_noaccess, hlen, hd]
  exact ⟨h1, by rw [h1], by rw [h1]; rfl, rfl⟩

/-- Witness for C2 at a 2-byte secret holding bytes `[3, 4]`. -/
theorem zeroize_spec_witness :
    zeroize ⟨some ⟨[3, 4], Prot.NoAccess⟩, 2, 0⟩
        = ⟨some ⟨List.replicate 2 0, Prot.NoAccess⟩, 2, 0⟩
    ∧ (zeroize ⟨some ⟨[3, 4], Prot.NoAccess⟩, 2, 0⟩).size_ = 2
    ∧ (zeroize ⟨some ⟨[3, 4], Prot.NoAccess⟩, 2, 0⟩).data_.isSome = true
    ∧ (sodium_mprotect_readwrite ⟨[3, 4], Prot.NoAccess⟩).prot = Prot.ReadWrite :=
  zeroize_spec ⟨some ⟨[3, 4], Prot.NoAccess⟩, 2, 0⟩ ⟨[3, 4], Prot.NoAccess⟩ rfl rfl

/-- C3: moving from a Secret with no live guard succeeds in every build;
the source is left with a null pointer and size 0 (so its `size()` reports
0 and a later destroy performs no wipe or release: `wipe_and_free` is a
no-op with flag `false`), while the destination owns the original
allocation at the original size, and reading the destination through a
read guard yields exactly the bytes the source held. -/
theorem moveConstruct_spec (debug : Bool) (s : Secret) (b : Buffer)
    (hdata : s.data_ = some b) (hlen : b.bytes.length = s.size_)
    (hcount : s.access_count_ = 0) :
    moveConstruct debug s = some (⟨some b, s.size_, 0⟩, ⟨none, 0, 0⟩)
    ∧ Secret.size ⟨none, 0, 0⟩ = 0
    ∧ wipe_and_free ⟨none, 0, 0⟩ = (⟨none, 0, (0 : Int)⟩, false)
    ∧ with_read_bytes debug ⟨some b, s.size_, 0⟩
        = some (b.bytes, ⟨some ⟨b.bytes, Prot.NoAccess⟩, s.size_, 0⟩) := by
  refine ⟨?_, rfl, rfl, with_read_bytes_eq debug ⟨some b, s.size_, 0⟩ b rfl rfl hlen⟩
  cases s with
  | mk d sz c =>
    subst hdata
    simp only at hcount
    subst hcount
    simp [moveConstruct]

/-- Witness for C3: moving a 2-byte secret holding `[8, 9]` in a debug
build. -/
theorem moveConstruct_spec_witness :
    moveConstruct true ⟨some ⟨[8, 9], Prot.NoAccess⟩, 2, 0⟩
        = some (⟨some ⟨[8, 9], Prot.NoAccess⟩, 2, 0⟩, ⟨none, 0, 0⟩)
    ∧ Secret.size ⟨none, 0, 0⟩ = 0
    ∧ wipe_and_free ⟨none, 0, 0⟩ = (⟨none, 0, (0 : Int)⟩, false)
    ∧ with_read_bytes true ⟨some ⟨[8, 9], Prot.NoAccess⟩, 2, 0⟩
        = some ([8, 9], ⟨some ⟨[8, 9], Prot.NoAccess⟩, 2, 0⟩) :=
  moveConstruct_spec true ⟨some ⟨[8, 9], Prot.NoAccess⟩, 2, 0⟩
    ⟨[8, 9], Prot.NoAccess⟩ rfl rfl rfl

/-- C9: move-assigning into a destination that owns an allocation (with no
live guard on either side) releases the destination's previous allocation
via `sodium_free` — which zeroes it before freeing — (flag `true`), and
afterwards the destination is the only handle holding the source's region
and size, while the source holds nothing. -/
theorem moveAssign_wipes_dest_and_transfers (debug : Bool) (dest src : Secret)
    (b : Buffer) (hdest : dest.data_ = some b)
    (hdc : dest.access_count_ = 0) (hsc : src.access_count_ = 0) :
    moveAssign debug false dest src
      = some (⟨src.data_, src.size_, 0⟩, ⟨none, 0, 0⟩, true) := by
  cases src with
  | mk d sz c =>
    simp only at hsc
    subst hsc
    simp [moveAssign, hdc, hdest]

/-- Witness for C9: a 1-byte destination and 2-byte source, debug build. -/
theorem moveAssign_wipes_dest_and_transfers_witness :
    moveAssign true false ⟨some ⟨[1], Prot.NoAccess⟩, 1, 0⟩
        ⟨some ⟨[5, 6], Prot.NoAccess⟩, 2, 0⟩
      = some (⟨some ⟨[5, 6], Prot.NoAccess⟩, 2, 0⟩, ⟨none, 0, 0⟩, true) :=
  moveAssign_wipes_dest_and_transfers true ⟨some ⟨[1], Prot.NoAccess⟩, 1, 0⟩
    ⟨some ⟨[5, 6], Prot.NoAccess⟩, 2, 0⟩ ⟨[1], Prot.NoAccess⟩ rfl rfl rfl

/-! Facts about the spec invariant `inv`, used by the preservation proof. -/

theorem inv_of_none (s : Secret) (h : s.data_ = none) : inv s = true := by
  simp [inv, h]

theorem inv_of_prot (s : Secret) (b : Buffer) (hdata : s.data_ = some b)
    (hprot : b.prot = Prot.NoAccess) : inv s = true := by
  simp [inv, hdata, hprot]

theorem inv_of_count (s : Secret) (h : s.access_count_ ≠ 0) : inv s = true := by
  simp [inv, h]

theorem prot_of_inv (s : Secret) (b : Buffer) (hinv : inv s = true)
    (hc : s.access_count_ = 0) (hdata : s.data_ = some b) :
    b.prot = Prot.NoAccess := by
  simpa [inv, hc, hdata] using hinv

/-- C5: "protection state is NoAccess whenever the live-guard counter is
zero" is an invariant of the instrumented (debug) build, preserved by
construction, `zeroize`, destruction (`wipe_and_free`), move construction
and move assignment, and by guard open and close; and for every successful
Open/Close pair (read or write), the protection state before the Open and
after the Close are both NoAccess. -/
theorem guard_state_invariant :
    (∀ (n : Nat) (s : Secret), (allocate true n).1 = some s → inv s = true)
    ∧ (∀ s : Secret, inv (zeroize s) = true)
    ∧ (∀ s : Secret, inv (wipe_and_free s).1 = true)
    ∧ (∀ (s d s2 : Secret), moveConstruct true s = some (d, s2) →
        inv s = true → inv d = true ∧ inv s2 = true)
    ∧ (∀ (isSelf : Bool) (dt sr dt2 sr2 : Secret) (fr : Bool),
        moveAssign true isSelf dt sr = some (dt2, sr2, fr) →
        inv dt = true → inv sr = true → inv dt2 = true ∧ inv sr2 = true)
    ∧ (∀ (s s1 : Secret), readaccess_open true s = some s1 → inv s1 = true)
    ∧ (∀ (s s1 : Secret), writeaccess_open true s = some s1 → inv s1 = true)
    ∧ (∀ (s s1 : Secret), readaccess_close true s = some s1 → inv s1 = true)
    ∧ (∀ (s s1 : Secret), writeaccess_close true s = some s1 → inv s1 = true)
    ∧ (∀ (s s1 s2 : Secret), inv s = true →
        readaccess_open true s = some s1 → readaccess_close true s1 = some s2 →
        protOf s = some Prot.NoAccess ∧ protOf s2 = some Prot.NoAccess
          ∧ inv s2 = true)
    ∧ (∀ (s s1 s2 : Secret), inv s = true →
        writeaccess_open true s = some s1 → writeaccess_close true s1 = some s2 →
        protOf s = some Prot.NoAccess ∧ protOf s2 = some Prot.NoAccess
          ∧ inv s2 = true) := by
  have hallocate : ∀ (n : Nat) (s : Secret),
      (allocate true n).1 = some s → inv s = true := by
    intro n s h
    by_cases hn : n = 0
    · simp [allocate, hn] at h
    · simp [allocate, hn] at h
      exact inv_of_prot s (sodium_mprotect_noaccess (sodium_malloc n))
        (by rw [← h]) rfl
  have hropen : ∀ (s s1 : Secret),
      readaccess_open true s = some s1 →
      s.access_count_ = 0 ∧ s1.access_count_ = s.access_count_ + 1 := by
    intro s s1 h
    by_cases hc : s.access_count_ = 0
    · cases hd : s.data_ with
      | none => simp [readaccess_open, hc, hd] at h
      | some b =>
        simp [readaccess_open, hc, hd] at h
        exact ⟨hc, by rw [← h, hc]; simp⟩
    · simp [readaccess_open, hc] at h
  have hwopen : ∀ (s s1 : Secret),
      writeaccess_open true s = some s1 →
      s.access_count_ = 0 ∧ s1.access_count_ = s.access_count_ + 1 := by
    intro s s1 h
    by_cases hc : s.access_count_ = 0
    · cases hd : s.data_ with
      | none => simp [writeaccess_open, hc, hd] at h
      | some b =>
        simp [writeaccess_open, hc, hd] at h
        exact ⟨hc, by rw [← h, hc]; simp⟩
    · simp [writeaccess_open, hc] at h
  have hrclose : ∀ (s s1 : Secret),
      readaccess_close true s = some s1 → inv s1 = true := by
    intro s s1 h
    cases hd : s.data_ with
    | none => simp [readaccess_close, hd] at h
    | some b =>
      simp [readaccess_close, hd] at h
      exact inv_of_prot s1 (sodium_mprotect_noaccess b) (by rw [← h]) rfl
  have hwclose : ∀ (s s1 : Secret),
      writeaccess_close true s = some s1 → inv s1 = true := by
    intro s s1 h
    cases hd : s.data_ with
    | none => simp [writeaccess_close, hd] at h
    | some b =>
      simp [writeaccess_close, hd] at h
      exact inv_of_prot s1 (sodium_mprotect_noaccess b) (by rw [← h]) rfl
  refine ⟨hallocate, ?_, ?_, ?_, ?_, ?_, ?_, hrclose, hwclose, ?_, ?_⟩
  · intro s
    cases hd : s.data_ with
    | none =>
      have : zeroize s = s := by simp [zeroize, hd]
      rw [this]
      exact inv_of_none s hd
    | some b =>
      cases s with
      | mk d sz c =>
        subst hd
        exact inv_of_prot (zeroize ⟨some b, sz, c⟩)
          (sodium_mprotect_noaccess
            (sodium_memzero (sodium_mprotect_readwrite b) sz))
          (by simp [zeroize]) rfl
  · intro s
    cases hd : s.data_ with
    | none =>
      have : (wipe_and_free s).1 = s := by simp [wipe_and_free, hd]
      rw [this]
      exact inv_of_none s hd
    | some b =>
      cases s with
      | mk d sz c =>
        subst hd
        exact inv_of_none _ (by simp [wipe_and_free])
  · intro s d s2 h hinv
    by_cases hc : s.access_count_ = 0
    · simp [moveConstruct, hc] at h
      obtain ⟨h1, h2⟩ := h
      constructor
      · cases hd : s.data_ with
        | none => exact inv_of_none d (by rw [← h1]; simpa using hd)
        | some b =>
          refine inv_of_prot d b (by rw [← h1]; simpa using hd) ?_
          exact prot_of_inv s b hinv hc hd
      · exact inv_of_none s2 (by rw [← h2])
    · simp [moveConstruct, hc] at h
  · intro isSelf dt sr dt2 sr2 fr h hidt hisr
    cases isSelf with
    | true =>
      simp [moveAssign] at h
      obtain ⟨h1, h2, -⟩ := h
      exact ⟨h1 ▸ hidt, h2 ▸ hisr⟩
    | false =>
      by_cases hc : dt.access_count_ = 0 ∧ sr.access_count_ = 0
      · simp [moveAssign, hc.1, hc.2] at h
        obtain ⟨h1, h2, -⟩ := h
        constructor
        · cases hd : sr.data_ with
          | none => exact inv_of_none dt2 (by rw [← h1]; simpa using hd)
          | some b =>
            refine inv_of_prot dt2 b (by rw [← h1]; simpa using hd) ?_
            exact prot_of_inv sr b hisr hc.2 hd
        · exact inv_of_none sr2 (by rw [← h2])
      · rcases Decidable.not_and_iff_or_not.mp hc with hc1 | hc2
        · simp [moveAssign, hc1] at h
        · simp [moveAssign, hc2] at h
  · intro s s1 h
    exact inv_of_count s1 (by rw [(hropen s s1 h).2, (hropen s s1 h).1]; decide)
  · intro s s1 h
    exact inv_of_count s1 (by rw [(hwopen s s1 h).2, (hwopen s s1 h).1]; decide)
  · intro s s1 s2 hinv hopen hclose
    obtain ⟨hc, -⟩ := hropen s s1 hopen
    have hd : ∀ b, s.data_ = some b → b.prot = Prot.NoAccess := fun b hb =>
      prot_of_inv s b hinv hc hb
    cases hds : s.data_ with
    | none => simp [readaccess_open, hc, hds] at hopen
    | some b =>
      refine ⟨by simp [protOf, hds, hd b hds], ?_, ?_⟩
      · simp [readaccess_open, hc, hds] at hopen
        have hd1 : s1.data_ = some (sodium_mprotect_readonly b) := by
          rw [← hopen]
        simp [readaccess_close, hd1] at hclose
        simp [protOf, ← hclose, sodium_mprotect_noaccess]
      · exact hrclose s1 s2 hclose
  · intro s s1 s2 hinv hopen hclose
    obtain ⟨hc, -⟩ := hwopen s s1 hopen
    have hd : ∀ b, s.data_ = some b → b.prot = Prot.NoAccess := fun b hb =>
      prot_of_inv s b hinv hc hb
    cases hds : s.data_ with
    | none => simp [writeaccess_open, hc, hds] at hopen
    | some b =>
      refine ⟨by simp [protOf, hds, hd b hds], ?_, ?_⟩
      · simp [writeaccess_open, hc, hds] at hopen
        have hd1 : s1.data_ = some (sodium_mprotect_readwrite b) := by
          rw [← hopen]
        simp [writeaccess_close, hd1] at hclose
        simp [protOf, ← hclose, sodium_mprotect_noaccess]
      · exact hwclose s1 s2 hclose

/-- Witness for C5: the invariant holds on a freshly constructed 2-byte
secret, and a concrete read-guard Open/Close pair starts and ends in
NoAccess. -/
theorem guard_state_invariant_witness :
    inv ⟨some ⟨List.replicate 2 GARBAGE, Prot.NoAccess⟩, 2, 0⟩ = true
    ∧ (protOf ⟨some ⟨[5], Prot.NoAccess⟩, 1, 0⟩ = some Prot.NoAccess
        ∧ protOf ⟨some ⟨[5], Prot.NoAccess⟩, 1, 0⟩ = some Prot.NoAccess
        ∧ inv ⟨some ⟨[5], Prot.NoAccess⟩, 1, 0⟩ = true) :=
  ⟨guard_state_invariant.1 2 ⟨some ⟨List.replicate 2 GARBAGE, Prot.NoAccess⟩, 2, 0⟩
      (by decide),
   guard_state_invariant.2.2.2.2.2.2.2.2.2.1 ⟨some ⟨[5], Prot.NoAccess⟩, 1, 0⟩
      ⟨some ⟨[5], Prot.ReadOnly⟩, 1, 1⟩ ⟨some ⟨[5], Prot.NoAccess⟩, 1, 0⟩
      (by decide) (by decide) (by decide)⟩

end pwledger
